import Mathlib

/-!
Shallow embedding of the PaintApp drawing core (`src/App.tsx`): the shape
model, the draw-session handlers (`handleMouseDown` / `handleMouseMove` /
`handleMouseUp`), the selection and drag engine (`handleSelect`,
`handleDragStart`, `handleDragMove`, `handleDragEnd`) and the persistence
pair (`handleSave` / `handleLoad`).  Coordinates are modelled as integers;
`Math.max` / `Math.min` become `max` / `min` on `Int`.
-/

/-- `type ShapeType = 'rectangle' | 'circle' | 'line'` -/
inductive ShapeType where
  | rectangle
  | circle
  | line
deriving DecidableEq, Repr

/-- `type LineStyle = 'solid' | 'dashed'` -/
inductive LineStyle where
  | solid
  | dashed
deriving DecidableEq, Repr

/-- `interface DrawingElement` from App.tsx: common appearance fields plus
geometry; `x2`/`y2` are the optional second endpoint, present on lines. -/
structure DrawingElement where
  id : String
  type : ShapeType
  x : Int
  y : Int
  width : Int
  height : Int
  color : String
  background : String
  lineStyle : LineStyle
  lineWidth : Int
  selected : Bool
  x2 : Option Int := none
  y2 : Option Int := none
deriving DecidableEq, Repr

/-- The default appearance record (`defaultAppearance` in App.tsx). -/
structure Appearance where
  color : String
  background : String
  lineStyle : LineStyle
  lineWidth : Int
deriving DecidableEq, Repr

def defaultAppearance : Appearance :=
  { color := "#000000", background := "#ffffff", lineStyle := .solid, lineWidth := 2 }

/-- The React component state: `elements`, `currentShape`, `drawing`,
`appearance`, `dragId`, `offset`. -/
structure AppState where
  elements : List DrawingElement
  currentShape : ShapeType
  drawing : Bool
  appearance : Appearance
  dragId : Option String
  offset : Int × Int
deriving DecidableEq, Repr

/-- The initial `useState` values of the component. -/
def initState : AppState :=
  { elements := [], currentShape := .rectangle, drawing := false,
    appearance := defaultAppearance, dragId := none, offset := (0, 0) }

def CANVAS_WIDTH : Int := 800
def CANVAS_HEIGHT : Int := 600

/-- `const clamp = (val, min, max) => Math.max(min, Math.min(max, val))` -/
def clamp (val lo hi : Int) : Int := max lo (min hi val)

/-- `handleMouseDown`: pointer-down.  Returns unchanged state unless the
event target is the canvas background itself (`e.target !== canvasRef.current`).
Otherwise appends a fresh zero-size shape of the currently selected kind
(lines additionally carry `x2 = x`, `y2 = y`) and sets `drawing`. -/
def handleMouseDown (s : AppState) (targetIsCanvas : Bool) (newId : String)
    (x y : Int) : AppState :=
  if !targetIsCanvas then s
  else
    let base : DrawingElement :=
      { id := newId, type := s.currentShape, x := x, y := y,
        width := 0, height := 0,
        color := s.appearance.color, background := s.appearance.background,
        lineStyle := s.appearance.lineStyle, lineWidth := s.appearance.lineWidth,
        selected := false }
    let el := if s.currentShape = .line then { base with x2 := some x, y2 := some y } else base
    { s with elements := s.elements ++ [el], drawing := true }

/-- The per-shape body of `handleMouseMove`'s `setElements` update, applied to
the last element of the collection; `x`, `y` are the already-clamped pointer
coordinates. -/
def updateLastElement (last : DrawingElement) (x y : Int) : DrawingElement :=
  match last.type with
  | .line =>
      { last with x2 := some (clamp x 0 CANVAS_WIDTH),
                  y2 := some (clamp y 0 CANVAS_HEIGHT) }
  | .circle =>
      let width0 := x - last.x
      let height0 := y - last.y
      let width1 := if last.x + width0 > CANVAS_WIDTH then CANVAS_WIDTH - last.x else width0
      let height1 := if last.y + height0 > CANVAS_HEIGHT then CANVAS_HEIGHT - last.y else height0
      let width2 := if last.x + width1 < 0 then -last.x else width1
      let height2 := if last.y + height1 < 0 then -last.y else height1
      { last with width := width2, height := height2 }
  | .rectangle =>
      { last with
          width := clamp (x - last.x) (-last.x) (CANVAS_WIDTH - last.x),
          height := clamp (y - last.y) (-last.y) (CANVAS_HEIGHT - last.y) }

/-- `handleMouseMove`: live draw update.  No-op unless `drawing`; clamps the
pointer to the canvas, then replaces the last element of the collection
(`[...prev.slice(0,-1), updated]`); no-op when the collection is empty
(`if (!last) return prev`). -/
def handleMouseMove (s : AppState) (px py : Int) : AppState :=
  if !s.drawing then s
  else
    let x := clamp px 0 CANVAS_WIDTH
    let y := clamp py 0 CANVAS_HEIGHT
    match s.elements.getLast? with
    | none => s
    | some last =>
        { s with elements := s.elements.dropLast ++ [updateLastElement last x y] }

/-- `handleMouseUp`: commit — clears the `drawing` flag, touches nothing else. -/
def handleMouseUp (s : AppState) : AppState := { s with drawing := false }

/-- `handleSelect`: maps over all elements setting `selected := (el.id === id)`. -/
def handleSelect (s : AppState) (id : String) : AppState :=
  { s with elements := s.elements.map fun el => { el with selected := el.id == id } }

/-- `handleDragStart`: looks the shape up by id; if absent, returns; otherwise
records the drag target and the pointer offset (`e.nativeEvent.offsetX/Y`). -/
def handleDragStart (s : AppState) (id : String) (offX offY : Int) : AppState :=
  match s.elements.find? (fun el => el.id == id) with
  | none => s
  | some _ => { s with dragId := some id, offset := (offX, offY) }

/-- The per-shape body of `handleDragMove`'s `setElements` update.  `x`, `y`
are the candidate origin (raw pointer minus stored offset).  Non-line shapes:
per-axis origin clamping keeping the unchanged extent inside the canvas.
Lines: both endpoints clamped; the source's `if (newX2 < 0) ... else if
(newX2 > CANVAS_WIDTH) ...` compensation branches are kept verbatim (they test
the already-clamped `newX2`/`newY2`). -/
def dragMoveElement (dId : String) (x y : Int) (el : DrawingElement) : DrawingElement :=
  if el.id ≠ dId then el
  else
    let newX :=
      if el.type ≠ .line then
        if el.width ≥ 0 then clamp x 0 (CANVAS_WIDTH - el.width)
        else
          let nx := clamp x 0 CANVAS_WIDTH
          if nx + el.width < 0 then -el.width else nx
      else clamp x 0 CANVAS_WIDTH
    let newY :=
      if el.type ≠ .line then
        if el.height ≥ 0 then clamp y 0 (CANVAS_HEIGHT - el.height)
        else
          let ny := clamp y 0 CANVAS_HEIGHT
          if ny + el.height < 0 then -el.height else ny
      else clamp y 0 CANVAS_HEIGHT
    match el.type, el.x2, el.y2 with
    | .line, some ex2, some ey2 =>
        let dx := newX - el.x
        let dy := newY - el.y
        let newX2 := clamp (ex2 + dx) 0 CANVAS_WIDTH
        let newY2 := clamp (ey2 + dy) 0 CANVAS_HEIGHT
        let px : Int × Int :=
          if newX2 < 0 then
            (0, clamp (newX + (0 - (ex2 + dx))) 0 CANVAS_WIDTH)
          else if newX2 > CANVAS_WIDTH then
            (CANVAS_WIDTH, clamp (newX + (CANVAS_WIDTH - (ex2 + dx))) 0 CANVAS_WIDTH)
          else (newX2, newX)
        let py : Int × Int :=
          if newY2 < 0 then
            (0, clamp (newY + (0 - (ey2 + dy))) 0 CANVAS_HEIGHT)
          else if newY2 > CANVAS_HEIGHT then
            (CANVAS_HEIGHT, clamp (newY + (CANVAS_HEIGHT - (ey2 + dy))) 0 CANVAS_HEIGHT)
          else (newY2, newY)
        { el with x := px.2, y := py.2, x2 := some px.1, y2 := some py.1 }
    | _, _, _ => { el with x := newX, y := newY }

/-- `handleDragMove`: no-op unless a drag is active; subtracts the stored
offset from the raw pointer and maps `dragMoveElement` over the collection. -/
def handleDragMove (s : AppState) (px py : Int) : AppState :=
  match s.dragId with
  | none => s
  | some dId =>
      let x := px - s.offset.1
      let y := py - s.offset.2
      { s with elements := s.elements.map (dragMoveElement dId x y) }

/-- `handleDragEnd`: clears the drag id unconditionally. -/
def handleDragEnd (s : AppState) : AppState := { s with dragId := none }

/-! ## Persistence (`handleSave` / `handleLoad`)

`handleSave` runs `JSON.stringify(elements)` into a fixed localStorage slot;
`handleLoad` reads the slot and, when present, `JSON.parse`s it into the
collection.  The serialization is modelled at the level of the JSON document
tree: `JValue` is the structure `JSON.stringify` produces and `JSON.parse`
recovers (the text layer is the host platform's lossless printer/parser, out
of scope per the spec, which leaves the blob format opaque).  Keys with
`undefined` values (`x2`/`y2` on non-lines) are omitted, as `JSON.stringify`
omits them. -/

inductive JValue where
  | jstr (s : String)
  | jint (n : Int)
  | jbool (b : Bool)
  | jarr (xs : List JValue)
  | jobj (fields : List (String × JValue))
deriving Repr

def ShapeType.toStr : ShapeType → String
  | .rectangle => "rectangle"
  | .circle => "circle"
  | .line => "line"

def shapeTypeOfStr (s : String) : Option ShapeType :=
  if s = "rectangle" then some .rectangle
  else if s = "circle" then some .circle
  else if s = "line" then some .line
  else none

def LineStyle.toStr : LineStyle → String
  | .solid => "solid"
  | .dashed => "dashed"

def lineStyleOfStr (s : String) : Option LineStyle :=
  if s = "solid" then some .solid
  else if s = "dashed" then some .dashed
  else none

/-- The JSON object `JSON.stringify` produces for one element: every defined
field under its property name, `x2`/`y2` present only when defined. -/
def encodeElement (el : DrawingElement) : JValue :=
  .jobj ([("id", .jstr el.id), ("type", .jstr el.type.toStr),
          ("x", .jint el.x), ("y", .jint el.y)]
    ++ (match el.x2 with | some v => [("x2", JValue.jint v)] | none => [])
    ++ (match el.y2 with | some v => [("y2", JValue.jint v)] | none => [])
    ++ [("width", .jint el.width), ("height", .jint el.height),
        ("color", .jstr el.color), ("background", .jstr el.background),
        ("lineStyle", .jstr el.lineStyle.toStr), ("lineWidth", .jint el.lineWidth),
        ("selected", .jbool el.selected)])

def asStr : JValue → Option String
  | .jstr s => some s
  | _ => none

def asInt : JValue → Option Int
  | .jint n => some n
  | _ => none

def asBool : JValue → Option Bool
  | .jbool b => some b
  | _ => none

def jfield (fs : List (String × JValue)) (k : String) : Option JValue :=
  match fs.find? (fun p => p.1 == k) with
  | some p => some p.2
  | none => none

/-- Reading one element back out of its JSON object. -/
def decodeElement (j : JValue) : Option DrawingElement :=
  match j with
  | .jobj fs =>
      match (jfield fs "id").bind asStr,
            ((jfield fs "type").bind asStr).bind shapeTypeOfStr,
            (jfield fs "x").bind asInt, (jfield fs "y").bind asInt,
            (jfield fs "width").bind asInt, (jfield fs "height").bind asInt with
      | some id, some ty, some x, some y, some width, some height =>
          match (jfield fs "color").bind asStr, (jfield fs "background").bind asStr,
                ((jfield fs "lineStyle").bind asStr).bind lineStyleOfStr,
                (jfield fs "lineWidth").bind asInt, (jfield fs "selected").bind asBool with
          | some color, some background, some lineStyle, some lineWidth, some selected =>
              some { id := id, type := ty, x := x, y := y,
                     width := width, height := height,
                     color := color, background := background,
                     lineStyle := lineStyle, lineWidth := lineWidth,
                     selected := selected,
                     x2 := (jfield fs "x2").bind asInt,
                     y2 := (jfield fs "y2").bind asInt }
          | _, _, _, _, _ => none
      | _, _, _, _, _, _ => none
  | _ => none

def encodeElements (els : List DrawingElement) : JValue :=
  .jarr (els.map encodeElement)

def decodeElementList : List JValue → Option (List DrawingElement)
  | [] => some []
  | j :: t =>
      match decodeElement j, decodeElementList t with
      | some el, some els => some (el :: els)
      | _, _ => none

def decodeElements (j : JValue) : Option (List DrawingElement) :=
  match j with
  | .jarr xs => decodeElementList xs
  | _ => none

/-- `handleSave`: overwrites the fixed `localStorage` slot with the serialized
collection (the stored blob, as a JSON document). -/
def handleSave (s : AppState) : Option JValue :=
  some (encodeElements s.elements)

/-- `handleLoad`: `if (data) setElements(JSON.parse(data))` — absent slot is a
no-op; a present blob that decodes as an element list replaces the collection. -/
def handleLoad (s : AppState) (store : Option JValue) : AppState :=
  match store with
  | none => s
  | some j =>
      match decodeElements j with
      | some els => { s with elements := els }
      | none => s

/-! ## Spec-side definitions

These follow the spec's words, to be compared with the handlers above. -/

/-- Spec §4.1 `clampExtentToCanvas`, one axis: signed extent from `anchor`
toward `target`; far edge clamped first (`anchor+extent` capped at `dim`),
near edge second (`anchor+extent` floored at `0`, overriding). -/
def clampExtentToCanvas (anchor target dim : Int) : Int :=
  let e0 := target - anchor
  let e1 := if anchor + e0 > dim then dim - anchor else e0
  if anchor + e1 < 0 then -anchor else e1

/-- Spec §4.3 drag clamp for non-line shapes, one axis: non-negative extent
clamps the origin to `[0, dim - extent]`; negative extent clamps the origin to
`[0, dim]` and then forces it to `-extent` when `origin + extent < 0`. -/
def dragClampAxis (candidate extent dim : Int) : Int :=
  if extent ≥ 0 then clamp candidate 0 (dim - extent)
  else
    let c := clamp candidate 0 dim
    if c + extent < 0 then -extent else c

/-- An optional coordinate, when present, lies in `[0, dim]`. -/
def inOpt (v : Option Int) (dim : Int) : Prop :=
  match v with
  | some u => 0 ≤ u ∧ u ≤ dim
  | none => True

instance (v : Option Int) (dim : Int) : Decidable (inOpt v dim) :=
  match v with
  | some _ => inferInstanceAs (Decidable (_ ∧ _))
  | none => inferInstanceAs (Decidable True)

/-- The footprint predicate: the sign-normalized bounding box of the shape lies
within `[0, CANVAS_WIDTH] × [0, CANVAS_HEIGHT]`.  For rectangles and circles
this is `[x, x+width] × [y, y+height]` normalized for sign; for lines the two
endpoints are considered independently (the segment's own bounding box). -/
def elInBounds (el : DrawingElement) : Prop :=
  (el.type = .line →
      (0 ≤ el.x ∧ el.x ≤ CANVAS_WIDTH ∧ 0 ≤ el.y ∧ el.y ≤ CANVAS_HEIGHT) ∧
      inOpt el.x2 CANVAS_WIDTH ∧ inOpt el.y2 CANVAS_HEIGHT) ∧
  (el.type ≠ .line →
      (0 ≤ min el.x (el.x + el.width) ∧ max el.x (el.x + el.width) ≤ CANVAS_WIDTH) ∧
      (0 ≤ min el.y (el.y + el.height) ∧ max el.y (el.y + el.height) ≤ CANVAS_HEIGHT))

instance (el : DrawingElement) : Decidable (elInBounds el) :=
  inferInstanceAs (Decidable (_ ∧ _))

/-- Every shape currently in the collection satisfies the bounds invariant. -/
def stateInBounds (s : AppState) : Prop :=
  ∀ el ∈ s.elements, elInBounds el

instance (s : AppState) : Decidable (stateInBounds s) :=
  List.decidableBAll _ s.elements

/-- The pointer-event operations a user session is made of: start / update /
commit (draw) and beginDrag / dragTo / endDrag (drag), plus the toolbar's
shape-kind selection feeding `currentShape`. -/
inductive Op where
  | mouseDown (targetIsCanvas : Bool) (newId : String) (x y : Int)
  | mouseMove (px py : Int)
  | mouseUp
  | select (id : String)
  | dragStart (id : String) (offX offY : Int)
  | dragMove (px py : Int)
  | dragEnd
  | setShape (t : ShapeType)
deriving DecidableEq, Repr

/-- The precondition of the bounds claim: every start point and every
beginDrag pointer lies within the canvas. -/
def opOK : Op → Prop
  | .mouseDown _ _ x y => 0 ≤ x ∧ x ≤ CANVAS_WIDTH ∧ 0 ≤ y ∧ y ≤ CANVAS_HEIGHT
  | .dragStart _ ox oy => 0 ≤ ox ∧ ox ≤ CANVAS_WIDTH ∧ 0 ≤ oy ∧ oy ≤ CANVAS_HEIGHT
  | _ => True

instance : (op : Op) → Decidable (opOK op)
  | .mouseDown _ _ _ _ => inferInstanceAs (Decidable (_ ∧ _ ∧ _ ∧ _))
  | .mouseMove _ _ => inferInstanceAs (Decidable True)
  | .mouseUp => inferInstanceAs (Decidable True)
  | .select _ => inferInstanceAs (Decidable True)
  | .dragStart _ _ _ => inferInstanceAs (Decidable (_ ∧ _ ∧ _ ∧ _))
  | .dragMove _ _ => inferInstanceAs (Decidable True)
  | .dragEnd => inferInstanceAs (Decidable True)
  | .setShape _ => inferInstanceAs (Decidable True)

/-- Dispatching one event to its handler. -/
def step (s : AppState) : Op → AppState
  | .mouseDown t i x y => handleMouseDown s t i x y
  | .mouseMove px py => handleMouseMove s px py
  | .mouseUp => handleMouseUp s
  | .select id => handleSelect s id
  | .dragStart id ox oy => handleDragStart s id ox oy
  | .dragMove px py => handleDragMove s px py
  | .dragEnd => handleDragEnd s
  | .setShape t => { s with currentShape := t }

/-- Running a whole event sequence from a state. -/
def runOps (s : AppState) (ops : List Op) : AppState :=
  ops.foldl step s

/-- How many shapes are currently selected. -/
def countSelected (els : List DrawingElement) : Nat :=
  (els.filter (·.selected)).length

/-! ## Helper lemmas -/

theorem le_clamp (v lo hi : Int) : lo ≤ clamp v lo hi := by
  simp only [clamp]; omega

theorem clamp_le (v lo hi : Int) (h : lo ≤ hi) : clamp v lo hi ≤ hi := by
  simp only [clamp]; omega

theorem clamp_idem (v lo hi : Int) : clamp (clamp v lo hi) lo hi = clamp v lo hi := by
  simp only [clamp]; omega

/-- One element decodes back from its own encoding, for every combination of
shape kind, stroke style and optional second endpoint. -/
theorem decodeElement_encodeElement (el : DrawingElement) :
    decodeElement (encodeElement el) = some el := by
  rcases el with ⟨id, ty, x, y, w, h, c, bg, ls, lw, sel, x2, y2⟩
  rcases ty <;> rcases ls <;> rcases x2 <;> rcases y2 <;> rfl

theorem decodeElements_encodeElements (els : List DrawingElement) :
    decodeElements (encodeElements els) = some els := by
  simp only [decodeElements, encodeElements]
  induction els with
  | nil => rfl
  | cons a t ih => simp [decodeElementList, decodeElement_encodeElement, ih]

/-! ## Sample shapes used by concrete witnesses -/

def sampleRect : DrawingElement :=
  { id := "r", type := .rectangle, x := 10, y := 10, width := 50, height := 50,
    color := "#000000", background := "#ffffff", lineStyle := .solid,
    lineWidth := 2, selected := false }

def sampleCircle : DrawingElement :=
  { id := "c", type := .circle, x := 300, y := 300, width := -40, height := -40,
    color := "#112233", background := "#445566", lineStyle := .dashed,
    lineWidth := 3, selected := true }

def sampleLine : DrawingElement :=
  { id := "l", type := .line, x := 0, y := 0, width := 0, height := 0,
    color := "#000000", background := "#ffffff", lineStyle := .solid,
    lineWidth := 2, selected := false, x2 := some 100, y2 := some 0 }

/-! ## Claim theorems -/

/-- C8: for every shape collection — non-empty ones with rectangles, circles
and lines of positive and negative extent included — loading immediately
after saving reproduces a collection identical to the serialized one: the
same shapes, same attribute values, same order. -/
theorem load_after_save_roundtrip (s t : AppState) :
    (handleLoad t (handleSave s)).elements = s.elements := by
  simp [handleLoad, handleSave, decodeElements_encodeElements]

/-- C9: with no active drag, `handleDragMove` is a no-op on the whole state;
with no active Draw Session — the `drawing` flag down, or the collection
empty — `handleMouseMove` is a no-op on the whole state.  Both are total, so
neither can crash on out-of-order events. -/
theorem invalid_ordering_noop :
    (∀ (s : AppState) (px py : Int), s.dragId = none → handleDragMove s px py = s) ∧
    (∀ (s : AppState) (px py : Int), s.drawing = false ∨ s.elements = [] →
      handleMouseMove s px py = s) := by
  constructor
  · intro s px py h
    simp [handleDragMove, h]
  · intro s px py h
    rcases h with h | h
    · simp [handleMouseMove, h]
    · rcases hd : s.drawing with _ | _
      · simp [handleMouseMove, hd]
      · simp [handleMouseMove, hd, h]

theorem invalid_ordering_noop_witness :
    handleDragMove initState 5 7 = initState ∧ handleMouseMove initState 5 7 = initState :=
  ⟨invalid_ordering_noop.1 initState 5 7 rfl, invalid_ordering_noop.2 initState 5 7 (Or.inl rfl)⟩

/-- C10: `handleSelect` with an identifier matching no shape in the
collection sets `selected = false` on every shape — it clears any existing
selection entirely instead of failing or leaving the selection alone, and can
leave a non-empty collection with zero selected shapes. -/
theorem select_missing_id_clears (s : AppState) (id : String)
    (h : id ∉ s.elements.map (·.id)) :
    ∀ el ∈ (handleSelect s id).elements, el.selected = false := by
  intro el hel
  simp only [handleSelect, List.mem_map] at hel
  obtain ⟨a, ha, rfl⟩ := hel
  simp only
  rw [beq_eq_false_iff_ne]
  intro hEq
  exact h (List.mem_map.mpr ⟨a, ha, hEq⟩)

theorem select_missing_id_clears_witness :
    "zzz" ∉ ([sampleRect, sampleCircle].map (·.id)) ∧
    ∀ el ∈ (handleSelect { initState with elements := [sampleRect, sampleCircle] } "zzz").elements,
      el.selected = false :=
  ⟨by decide,
   select_missing_id_clears { initState with elements := [sampleRect, sampleCircle] } "zzz"
     (by decide)⟩

/-- Helper for C7: after `handleSelect`, the number of selected shapes equals
the number of shapes carrying the chosen id. -/
theorem countSelected_handleSelect (els : List DrawingElement) (id : String) :
    countSelected (els.map fun el => { el with selected := el.id == id }) =
      List.count id (els.map (·.id)) := by
  simp only [countSelected, List.filter_map, List.length_map, List.count,
    ← List.countP_eq_length_filter, List.countP_map]
  rfl

/-- C7: `handleSelect` marks exactly the shape whose id was passed and clears
every other shape; with pairwise-distinct ids and the chosen id present,
exactly one shape is selected afterwards, and zero when the collection is
empty — so a `selectAt` call never leaves two shapes selected. -/
theorem select_exclusivity (s : AppState) (id : String) :
    (∀ el ∈ (handleSelect s id).elements, el.selected = (el.id == id)) ∧
    ((s.elements.map (·.id)).Nodup → id ∈ s.elements.map (·.id) →
      countSelected (handleSelect s id).elements = 1) ∧
    (s.elements = [] → countSelected (handleSelect s id).elements = 0) := by
  refine ⟨?_, ?_, ?_⟩
  · intro el hel
    simp only [handleSelect, List.mem_map] at hel
    obtain ⟨a, _, rfl⟩ := hel
    rfl
  · intro hnd hmem
    simp only [handleSelect]
    rw [countSelected_handleSelect]
    exact List.count_eq_one_of_mem hnd hmem
  · intro h
    simp [handleSelect, h, countSelected]

theorem select_exclusivity_witness :
    (([sampleRect, sampleCircle].map (·.id)).Nodup ∧ "c" ∈ [sampleRect, sampleCircle].map (·.id)) ∧
    countSelected (handleSelect { initState with elements := [sampleRect, sampleCircle] } "c").elements = 1 :=
  ⟨⟨by decide, by decide⟩,
   (select_exclusivity { initState with elements := [sampleRect, sampleCircle] } "c").2.1
     (by decide) (by decide)⟩

/-- A state with a Draw Session in progress: pointer-down on the empty canvas
at (100,100) from the initial state. -/
def drawActiveState : AppState := handleMouseDown initState true "a" 100 100

/-- A state with a committed shape and an active drag of it. -/
def dragActiveState : AppState := handleDragStart (handleMouseUp drawActiveState) "a" 5 5

/-- C2 counterexample: with a Draw Session active (`drawing = true`),
`handleDragStart` on the in-progress shape is NOT rejected — it enters the
drag state and records the offset; and with a drag active
(`dragId = some "a"`), `handleMouseDown` on the empty canvas is NOT rejected —
it appends a new shape and enters the Draw Session. -/
theorem session_exclusivity_cex :
    (drawActiveState.drawing = true ∧
     (handleDragStart drawActiveState "a" 5 5).dragId = some "a" ∧
     (handleDragStart drawActiveState "a" 5 5).offset = (5, 5)) ∧
    (dragActiveState.dragId = some "a" ∧
     (handleMouseDown dragActiveState true "b" 50 50).elements.length =
       dragActiveState.elements.length + 1 ∧
     (handleMouseDown dragActiveState true "b" 50 50).drawing = true) := by
  decide

/-- C2 amended: neither handler consults the other session's state.
`handleDragStart` succeeds (drag state entered, offset recorded, collection
untouched) whenever a shape with the given id exists, regardless of the
`drawing` flag; `handleMouseDown` on the empty canvas always appends a new
shape and raises the `drawing` flag, regardless of any active drag. -/
theorem session_nonexclusivity :
    (∀ (s : AppState) (id : String) (ox oy : Int),
        (s.elements.find? fun el => el.id == id).isSome = true →
        (handleDragStart s id ox oy).dragId = some id ∧
        (handleDragStart s id ox oy).offset = (ox, oy) ∧
        (handleDragStart s id ox oy).elements = s.elements) ∧
    (∀ (s : AppState) (i : String) (x y : Int),
        (handleMouseDown s true i x y).drawing = true ∧
        (handleMouseDown s true i x y).elements.length = s.elements.length + 1) := by
  constructor
  · intro s id ox oy h
    rw [Option.isSome_iff_exists] at h
    obtain ⟨el, hel⟩ := h
    simp [handleDragStart, hel]
  · intro s i x y
    constructor
    · simp [handleMouseDown]
    · simp only [handleMouseDown, Bool.not_true, Bool.false_eq_true, if_false]
      split <;> simp

theorem session_nonexclusivity_witness :
    ((drawActiveState.elements.find? fun el => el.id == "a").isSome = true ∧
      (handleDragStart drawActiveState "a" 5 5).dragId = some "a") ∧
    ((handleMouseDown dragActiveState true "b" 50 50).drawing = true ∧
      (handleMouseDown dragActiveState true "b" 50 50).elements.length =
        dragActiveState.elements.length + 1) :=
  ⟨⟨by decide, (session_nonexclusivity.1 drawActiveState "a" 5 5 (by decide)).1⟩,
   session_nonexclusivity.2 dragActiveState "b" 50 50⟩

/-- The C3 failing input: a horizontal line from (0,0) to (100,0) being
dragged with stored offset (0,0). -/
def c3State : AppState := { initState with elements := [sampleLine], dragId := some "l" }

/-- C3: evaluating `handleDragMove` at the failing input.  Dragging the line
(0,0)–(100,0) to candidate anchor (750,0) yields anchor (750,0) and far
endpoint (800,0): the far-endpoint clamp moved the far endpoint, yet the
anchor was NOT compensated — the relative geometry shrinks from 100 to 50
even though the compensated placement (700,0)–(800,0) lies fully in bounds.
The source's compensation branches test the already-clamped `newX2`
(`newX2 < 0`, `newX2 > CANVAS_WIDTH`), which can never hold after
`clamp(·, 0, CANVAS_WIDTH)`, so they are unreachable. -/
theorem line_drag_compensation_dead :
    (handleDragMove c3State 750 0).elements =
      [{ sampleLine with x := 750, y := 0, x2 := some 800, y2 := some 0 }] ∧
    (800 - 750 ≠ (100 : Int) - 0) ∧
    (0 ≤ (700 : Int) ∧ (700 : Int) ≤ CANVAS_WIDTH ∧ 0 ≤ (800 : Int) ∧
      (800 : Int) ≤ CANVAS_WIDTH ∧ (800 : Int) - 700 = 100 - 0) := by
  decide

/-- C5: while a drag of a non-line shape is active, `handleDragMove` computes
the candidate origin as the raw pointer minus the stored offset and clamps it
per axis exactly as the spec states — non-negative extent: origin into
`[0, dim − extent]`; negative extent: origin into `[0, dim]` then forced to
`-extent` when `origin + extent < 0` — leaving width, height and all other
fields unchanged. -/
theorem drag_nonline_formula (s : AppState) (px py : Int) (d : String)
    (hd : s.dragId = some d) :
    (handleDragMove s px py).elements =
      s.elements.map (dragMoveElement d (px - s.offset.1) (py - s.offset.2)) ∧
    ∀ el : DrawingElement, el.id = d → el.type ≠ .line →
      dragMoveElement d (px - s.offset.1) (py - s.offset.2) el =
        { el with x := dragClampAxis (px - s.offset.1) el.width CANVAS_WIDTH,
                  y := dragClampAxis (py - s.offset.2) el.height CANVAS_HEIGHT } := by
  constructor
  · simp [handleDragMove, hd]
  · intro el hid htype
    obtain ⟨eid, ty, ex, ey, w, h, c, bg, ls, lw, sel, x2, y2⟩ := el
    simp only at hid htype
    subst hid
    rcases ty <;> simp_all [dragMoveElement, dragClampAxis]

/-- The drag scenario state for the C5 witness: `sampleRect` — a rectangle at
(10,10) with width 50 and height 50 — being dragged with stored offset (0,0). -/
def dragRectState : AppState := { initState with elements := [sampleRect], dragId := some "r" }

theorem drag_nonline_formula_witness :
    dragRectState.dragId = some "r" ∧
    (handleDragMove dragRectState (-100) 20).elements = [{ sampleRect with x := 0, y := 20 }] ∧
    sampleRect.width = 50 := by
  refine ⟨rfl, ?_, rfl⟩
  rw [(drag_nonline_formula dragRectState (-100) 20 "r" rfl).1]
  decide

/-- The rectangle branch's `clamp(p − a, −a, dim − a)` computes exactly the
far-edge-then-near-edge extent clamp. -/
theorem clamp_eq_clampExtentToCanvas (a p dim : Int) :
    clamp (p - a) (-a) (dim - a) = clampExtentToCanvas a p dim := by
  simp only [clamp, clampExtentToCanvas]
  split_ifs <;> omega

/-- C6: while a Draw Session is active, `handleMouseMove` clamps the pointer
to `[0,800] × [0,600]` and rewrites only the last shape of the collection:
a line gets its far endpoint `(x2,y2)` set to the clamped point with the
start endpoint untouched, and a rectangle or circle gets signed width/height
from its fixed anchor to the clamped point via the far-edge-first,
near-edge-second extent clamp; every earlier shape is returned unchanged. -/
theorem update_last_formula (s : AppState) (pre : List DrawingElement)
    (lastEl : DrawingElement) (px py : Int)
    (hd : s.drawing = true) (he : s.elements = pre ++ [lastEl]) :
    (handleMouseMove s px py).elements =
      pre ++ [updateLastElement lastEl (clamp px 0 CANVAS_WIDTH) (clamp py 0 CANVAS_HEIGHT)] ∧
    (lastEl.type = .line →
      updateLastElement lastEl (clamp px 0 CANVAS_WIDTH) (clamp py 0 CANVAS_HEIGHT) =
        { lastEl with x2 := some (clamp px 0 CANVAS_WIDTH),
                      y2 := some (clamp py 0 CANVAS_HEIGHT) }) ∧
    (lastEl.type ≠ .line →
      updateLastElement lastEl (clamp px 0 CANVAS_WIDTH) (clamp py 0 CANVAS_HEIGHT) =
        { lastEl with
            width := clampExtentToCanvas lastEl.x (clamp px 0 CANVAS_WIDTH) CANVAS_WIDTH,
            height := clampExtentToCanvas lastEl.y (clamp py 0 CANVAS_HEIGHT) CANVAS_HEIGHT }) := by
  refine ⟨?_, ?_, ?_⟩
  · simp [handleMouseMove, hd, he, List.getLast?_concat, List.dropLast_concat]
  · intro hline
    simp [updateLastElement, hline, clamp_idem]
  · intro hnl
    obtain ⟨eid, ty, ex, ey, w, h, c, bg, ls, lw, sel, x2, y2⟩ := lastEl
    simp only at hnl ⊢
    rcases ty with _ | _ | _
    · simp only [updateLastElement, clamp_eq_clampExtentToCanvas]
    · simp only [updateLastElement, clampExtentToCanvas]
    · exact absurd rfl hnl

/-- The rectangle produced by `start('rectangle', (100,100))` from the
initial state. -/
def c6Rect : DrawingElement :=
  { id := "a", type := .rectangle, x := 100, y := 100, width := 0, height := 0,
    color := "#000000", background := "#ffffff", lineStyle := .solid,
    lineWidth := 2, selected := false }

theorem update_last_formula_witness :
    (drawActiveState.drawing = true ∧ drawActiveState.elements = [] ++ [c6Rect]) ∧
    (handleMouseMove drawActiveState 50 50).elements =
      [{ c6Rect with width := -50, height := -50 }] ∧
    (handleMouseMove (handleMouseDown { initState with currentShape := .line } true "l" 790 10)
        850 10).elements =
      [{ id := "l", type := .line, x := 790, y := 10, width := 0, height := 0,
         color := "#000000", background := "#ffffff", lineStyle := .solid,
         lineWidth := 2, selected := false, x2 := some 800, y2 := some 10 }] := by
  refine ⟨⟨rfl, by decide⟩, ?_, by decide⟩
  rw [(update_last_formula drawActiveState [] c6Rect 50 50 rfl (by decide)).1]
  decide

/-- Helper for C4: one `dragMoveElement` step never touches id, width or
height. -/
theorem dragMoveElement_keeps_size (dId : String) (x y : Int) (el : DrawingElement) :
    (dragMoveElement dId x y el).id = el.id ∧
    (dragMoveElement dId x y el).width = el.width ∧
    (dragMoveElement dId x y el).height = el.height := by
  obtain ⟨eid, ty, ex, ey, w, h, c, bg, ls, lw, sel, x2, y2⟩ := el
  rcases ty <;> rcases x2 <;> rcases y2 <;>
    simp [dragMoveElement] <;> split_ifs <;> simp

/-- Helper for C4: one `handleDragMove` step preserves every shape's id,
width and height (pointwise, in order). -/
theorem dragMove_keeps_sizes (s : AppState) (px py : Int) :
    ((handleDragMove s px py).elements.map fun e => (e.id, e.width, e.height)) =
      s.elements.map fun e => (e.id, e.width, e.height) := by
  unfold handleDragMove
  rcases s.dragId with _ | dId
  · rfl
  · simp only [List.map_map]
    exact List.map_congr_left fun a _ => by
      obtain ⟨h1, h2, h3⟩ := dragMoveElement_keeps_size dId (px - s.offset.1) (py - s.offset.2) a
      simp [Function.comp, h1, h2, h3]

/-- C4: whatever extent `(w,h)` each shape has when a drag begins, it still
has after any sequence of `dragTo` moves followed by `endDrag`: dragging
changes position only, never the width/height fields (ids keep the shapes
aligned pointwise). -/
theorem drag_preserves_size (s : AppState) (moves : List (Int × Int)) :
    ((handleDragEnd (moves.foldl (fun t p => handleDragMove t p.1 p.2) s)).elements.map
        fun e => (e.id, e.width, e.height)) =
      s.elements.map fun e => (e.id, e.width, e.height) := by
  induction moves generalizing s with
  | nil => rfl
  | cons p rest ih =>
      rw [List.foldl_cons]
      rw [ih (handleDragMove s p.1 p.2)]
      exact dragMove_keeps_sizes s p.1 p.2

/-! ## The bounds invariant (C1) -/

/-- A freshly created shape with zero extent at an in-canvas point is in
bounds, whatever its optional endpoint fields hold, as long as those are in
bounds too. -/
theorem newElement_inBounds (i : String) (ty : ShapeType) (x y : Int)
    (c bg : String) (ls : LineStyle) (lw : Int) (xo yo : Option Int)
    (hx : 0 ≤ x) (hxw : x ≤ CANVAS_WIDTH) (hy : 0 ≤ y) (hyh : y ≤ CANVAS_HEIGHT)
    (hxo : inOpt xo CANVAS_WIDTH) (hyo : inOpt yo CANVAS_HEIGHT) :
    elInBounds { id := i, type := ty, x := x, y := y, width := 0, height := 0,
                 color := c, background := bg, lineStyle := ls, lineWidth := lw,
                 selected := false, x2 := xo, y2 := yo } := by
  refine ⟨fun _ => ⟨⟨hx, hxw, hy, hyh⟩, hxo, hyo⟩, fun _ => ?_⟩
  simp only
  omega

/-- `handleMouseDown` with an in-canvas point preserves the bounds invariant. -/
theorem mouseDown_inBounds (s : AppState) (t : Bool) (i : String) (x y : Int)
    (hs : stateInBounds s)
    (hx : 0 ≤ x) (hxw : x ≤ CANVAS_WIDTH) (hy : 0 ≤ y) (hyh : y ≤ CANVAS_HEIGHT) :
    stateInBounds (handleMouseDown s t i x y) := by
  unfold handleMouseDown
  split
  · exact hs
  · intro el hel
    simp only [List.mem_append, List.mem_singleton] at hel
    rcases hel with h | h
    · exact hs el h
    · subst h
      split
      · exact newElement_inBounds _ _ _ _ _ _ _ _ _ _ hx hxw hy hyh ⟨hx, hxw⟩ ⟨hy, hyh⟩
      · exact newElement_inBounds _ _ _ _ _ _ _ _ _ _ hx hxw hy hyh trivial trivial

/-- `updateLastElement` with an already-clamped pointer preserves the bounds
invariant of the shape it rewrites. -/
theorem updateLastElement_inBounds (el : DrawingElement) (x y : Int)
    (hb : elInBounds el)
    (hx : 0 ≤ x) (hxw : x ≤ CANVAS_WIDTH) (hy : 0 ≤ y) (hyh : y ≤ CANVAS_HEIGHT) :
    elInBounds (updateLastElement el x y) := by
  obtain ⟨eid, ty, ex, ey, w, h, c, bg, ls, lw, sel, x2, y2⟩ := el
  rcases ty <;>
    simp_all [updateLastElement, elInBounds, inOpt, clamp, CANVAS_WIDTH, CANVAS_HEIGHT] <;>
    split_ifs <;> omega

/-- `handleMouseMove` preserves the bounds invariant. -/
theorem mouseMove_inBounds (s : AppState) (px py : Int) (hs : stateInBounds s) :
    stateInBounds (handleMouseMove s px py) := by
  unfold handleMouseMove
  split
  · exact hs
  · rcases hgl : s.elements.getLast? with _ | lastEl
    · simp only [hgl]
      exact hs
    · simp only [hgl]
      intro el hel
      rcases List.mem_append.mp hel with h | h
      · exact hs el (List.dropLast_subset _ h)
      · rw [List.mem_singleton] at h
        subst h
        obtain ⟨l', hsplit⟩ := List.getLast?_eq_some_iff.mp hgl
        have hmem : lastEl ∈ s.elements := by rw [hsplit]; simp
        exact updateLastElement_inBounds lastEl _ _ (hs lastEl hmem)
          (le_clamp _ _ _) (clamp_le _ _ _ (by decide))
          (le_clamp _ _ _) (clamp_le _ _ _ (by decide))


set_option maxHeartbeats 1000000 in
/-- `dragMoveElement` preserves each shape's bounds invariant: every value it
writes into a coordinate field is a clamp into the canvas, or `-extent` with
the extent known canvas-sized from the invariant. -/
theorem dragMoveElement_inBounds (dId : String) (x y : Int) (el : DrawingElement)
    (hb : elInBounds el) : elInBounds (dragMoveElement dId x y el) := by
  unfold dragMoveElement
  split
  · exact hb
  · obtain ⟨eid, ty, ex, ey, w, h, c, bg, ls, lw, sel, x2, y2⟩ := el
    obtain ⟨hline, hrect⟩ := hb
    rcases ty with _ | _ | _
    · -- rectangle
      obtain ⟨⟨hx1, hx2⟩, hy1, hy2⟩ := hrect (fun hc => nomatch hc)
      constructor
      · intro hc
        exact nomatch hc
      · intro hne
        simp only [clamp, CANVAS_WIDTH, CANVAS_HEIGHT] at *
        split_ifs <;> constructor <;> constructor <;> omega
    · -- circle
      obtain ⟨⟨hx1, hx2⟩, hy1, hy2⟩ := hrect (fun hc => nomatch hc)
      constructor
      · intro hc
        exact nomatch hc
      · intro hne
        simp only [clamp, CANVAS_WIDTH, CANVAS_HEIGHT] at *
        split_ifs <;> constructor <;> constructor <;> omega
    · -- line
      obtain ⟨⟨hx1, hx2, hy1, hy2⟩, ho1, ho2⟩ := hline rfl
      rcases x2 with _ | ex2 <;> rcases y2 with _ | ey2
      · constructor
        · intro hc
          refine ⟨?_, trivial, trivial⟩
          simp [clamp, CANVAS_WIDTH, CANVAS_HEIGHT]
        · intro hne
          exact absurd rfl hne
      · constructor
        · intro hc
          refine ⟨?_, trivial, ho2⟩
          simp [clamp, CANVAS_WIDTH, CANVAS_HEIGHT]
        · intro hne
          exact absurd rfl hne
      · constructor
        · intro hc
          refine ⟨?_, ho1, trivial⟩
          simp [clamp, CANVAS_WIDTH, CANVAS_HEIGHT]
        · intro hne
          exact absurd rfl hne
      · constructor
        · intro hc
          simp [inOpt, clamp, CANVAS_WIDTH, CANVAS_HEIGHT]
        · intro hne
          exact absurd rfl hne

/-- `handleDragMove` preserves the bounds invariant. -/
theorem dragMove_inBounds (s : AppState) (px py : Int) (hs : stateInBounds s) :
    stateInBounds (handleDragMove s px py) := by
  unfold handleDragMove
  rcases hdrag : s.dragId with _ | dId
  · simp only [hdrag]
    exact hs
  · simp only [hdrag]
    intro el hel
    obtain ⟨a, ha, rfl⟩ := List.mem_map.mp hel
    exact dragMoveElement_inBounds _ _ _ a (hs a ha)

/-- `handleDragStart` never touches the collection. -/
theorem dragStart_elements (s : AppState) (j : String) (ox oy : Int) :
    (handleDragStart s j ox oy).elements = s.elements := by
  unfold handleDragStart
  split <;> rfl

/-- Every single event preserves the bounds invariant when its precondition
holds. -/
theorem step_inBounds (s : AppState) (op : Op) (hs : stateInBounds s)
    (hop : opOK op) : stateInBounds (step s op) := by
  rcases op with ⟨t, i, x, y⟩ | ⟨px, py⟩ | _ | j | ⟨j, ox, oy⟩ | ⟨px, py⟩ | _ | ty
  · obtain ⟨h1, h2, h3, h4⟩ := hop
    exact mouseDown_inBounds s t i x y hs h1 h2 h3 h4
  · exact mouseMove_inBounds s px py hs
  · exact hs
  · intro el hel
    obtain ⟨a, ha, rfl⟩ := List.mem_map.mp hel
    exact hs a ha
  · intro el hel
    rw [show step s (Op.dragStart j ox oy) = handleDragStart s j ox oy from rfl,
      dragStart_elements] at hel
    exact hs el hel
  · exact dragMove_inBounds s px py hs
  · exact hs
  · exact hs

/-- The invariant carries through a whole event sequence. -/
theorem runOps_inBounds (ops : List Op) : ∀ s : AppState, stateInBounds s →
    (∀ op ∈ ops, opOK op) → stateInBounds (runOps s ops) := by
  induction ops with
  | nil => exact fun s hs _ => hs
  | cons op rest ih =>
      intro s hs hops
      rw [runOps, List.foldl_cons]
      exact ih (step s op)
        (step_inBounds s op hs (hops op (by simp)))
        (fun o ho => hops o (by simp [ho]))

/-- C1: from the initial empty state, for every sequence of draw and drag
events whose start points and beginDrag pointers lie within the canvas, every
shape in the collection keeps its footprint — the sign-normalized bounding
box, a line's two endpoints checked independently — inside `[0,800] × [0,600]`;
since every prefix of such a sequence is again such a sequence, the invariant
holds after each update, commit, dragTo and endDrag. -/
theorem bounds_invariant (ops : List Op) (hops : ∀ op ∈ ops, opOK op) :
    stateInBounds (runOps initState ops) :=
  runOps_inBounds ops initState (fun el h => absurd h (List.not_mem_nil el)) hops

/-- A concrete event sequence exercising all three shape kinds, an
out-of-canvas draw update and an out-of-canvas drag. -/
def witnessOps : List Op :=
  [.setShape .line, .mouseDown true "l" 790 10, .mouseMove 850 10, .mouseUp,
   .setShape .rectangle, .mouseDown true "r" 100 100, .mouseMove 900 700, .mouseUp,
   .setShape .circle, .mouseDown true "c" 300 300, .mouseMove 260 260, .mouseUp,
   .select "r", .dragStart "r" 5 5, .dragMove (-300) (-300), .dragEnd]

theorem bounds_invariant_witness :
    (∀ op ∈ witnessOps, opOK op) ∧ stateInBounds (runOps initState witnessOps) :=
  ⟨by decide, bounds_invariant witnessOps (by decide)⟩
